import Mathlib

/-
Verification of the audio-forensic demo application.

This development gives a shallow embedding of the application's core logic:
the decibel-chart rolling history (DecibelChart), the sonar view's listener
drag interaction and rendering placement (SonarView), the capture adapter's
loudness computation (AudioRecorder / App), the progress simulator and mock
analysis results (AudioAnalyzer), the mock source generators (AudioUploader,
AudioRecorder), the report view (ReportGenerator), and the App-level dataset
size bookkeeping.

Numeric values that the application manipulates with ordinary float
arithmetic are embedded as rationals, except the logarithmic loudness
computation which is embedded over the reals.  Calls to trigonometric
functions in the canvas renderer are embedded through an abstract `Trig`
record, since the claims under study concern only the arguments handed to
those functions, never their values.
-/

namespace AudioForensic

/-! ## Level Chart Renderer (DecibelChart)

The component keeps `decibelHistory : number[]` with `maxDataPoints = 100`.
On each change of `currentDecibel`, if it is strictly positive it appends it
and keeps the last `maxDataPoints` entries via `slice(-maxDataPoints)`. -/

def maxDataPoints : ℕ := 100

/-- JavaScript `array.slice(-n)`: the last `n` entries (the whole array when
it is shorter than `n`). -/
def takeLast (n : ℕ) (l : List ℚ) : List ℚ :=
  l.drop (l.length - n)

/-- One delivery of a `currentDecibel` sample to the chart: append when
strictly positive, then keep the last `maxDataPoints` entries. -/
def chartStep (h : List ℚ) (d : ℚ) : List ℚ :=
  if 0 < d then takeLast maxDataPoints (h ++ [d]) else h

/-- The history after a whole sequence of delivered samples, starting from
the initial empty history. -/
def chartRun (ds : List ℚ) : List ℚ :=
  ds.foldl chartStep []

/-- The samples that the chart actually appends: the strictly positive ones. -/
def positiveSamples (ds : List ℚ) : List ℚ :=
  ds.filter (fun d => 0 < d)

/-! ## Sonar Renderer (SonarView): listener drag interaction

The canvas is 500 by 500; the listener starts at (250, 250).  A pointer-down
within distance 15 of the listener begins a drag; a pointer-move while
dragging clamps the new position into [20, width - 20] times
[20, height - 20]; pointer-up and pointer-leave end the drag. -/

def canvasW : ℚ := 500

def canvasH : ℚ := 500

structure SonarState where
  x : ℚ
  y : ℚ
  dragging : Bool
  deriving DecidableEq

def initialSonarState : SonarState := { x := 250, y := 250, dragging := false }

inductive PointerEvent where
  | down (px py : ℚ)
  | move (px py : ℚ)
  | up
  deriving DecidableEq

/-- `handleMouseDown`: begin dragging when the pointer is within distance 15
of the listener.  The square-root comparison of the source is embedded as the
equivalent squared-distance comparison. -/
def handleMouseDown (s : SonarState) (px py : ℚ) : SonarState :=
  if (px - s.x) ^ 2 + (py - s.y) ^ 2 ≤ 15 ^ 2 then { s with dragging := true } else s

/-- `handleMouseMove`: while dragging, move the listener to the pointer
position clamped to stay 20 pixels inside the canvas bounds. -/
def handleMouseMove (s : SonarState) (px py : ℚ) : SonarState :=
  if s.dragging then
    { s with x := max 20 (min px (canvasW - 20)), y := max 20 (min py (canvasH - 20)) }
  else s

/-- `handleMouseUp`, also installed as the pointer-leave handler. -/
def handleMouseUp (s : SonarState) : SonarState :=
  { s with dragging := false }

def sonarStep (s : SonarState) (e : PointerEvent) : SonarState :=
  match e with
  | .down px py => handleMouseDown s px py
  | .move px py => handleMouseMove s px py
  | .up => handleMouseUp s

def runSonar (es : List PointerEvent) : SonarState :=
  es.foldl sonarStep initialSonarState

/-- The listener stays at least 20 pixels inside every canvas edge. -/
def listenerInBounds (s : SonarState) : Prop :=
  20 ≤ s.x ∧ s.x ≤ canvasW - 20 ∧ 20 ≤ s.y ∧ s.y ≤ canvasH - 20

/-! ## Data model: AudioSource

The record shared by every component.  Float-valued fields are embedded as
rationals.  The color is either one of the fixed hex strings of the recorded
generator or an hsl hue produced by the upload generator. -/

inductive SourceType where
  | noise | voice | music | ambient | unknown
  deriving DecidableEq

inductive SourceColor where
  | hex (s : String)
  | hsl (hue : ℚ)
  deriving DecidableEq

structure Pos3 where
  x : ℚ
  y : ℚ
  z : ℚ
  deriving DecidableEq

structure AudioSource where
  id : String
  name : String
  type : SourceType
  decibel : ℚ
  frequency : ℚ
  position : Pos3
  distance : ℚ
  visible : Bool
  color : SourceColor
  deriving DecidableEq

/-! ## Sonar Renderer: marker and label placement

The renderer calls `Math.cos`/`Math.sin`/`Math.PI` on the angles it
computes.  The claims concern only which angle and radius the code feeds to
those calls, so the trigonometric functions and the constant pi are embedded
as an abstract record. -/

structure Trig where
  co : ℚ → ℚ
  si : ℚ → ℚ
  pi : ℚ

/-- JavaScript `parseInt(id.replace(/\D/g, '')) || 0`: the number formed by
the decimal digits of the identifier, or 0 when it has none. -/
def idNumber (id : String) : ℕ :=
  (id.toList.filter Char.isDigit).foldl (fun n c => 10 * n + (c.toNat - 48)) 0

/-- `drawAudioSource`: the marker is drawn at the angle derived from the
identifier hash, at radius distance * 5 from the listener. -/
def markerPoint (T : Trig) (center : ℚ × ℚ) (s : AudioSource) : ℚ × ℚ :=
  let angle : ℚ := (idNumber s.id : ℚ) * (1 / 2)
  let dist : ℚ := s.distance * 5
  (center.1 + T.co angle * dist, center.2 + T.si angle * dist)

/-- `drawLabels`: the label of the source at position `index` of a list of
`n` sources is drawn at angle (index / n) * 2 * pi, at fixed radius 280. -/
def labelPoint (T : Trig) (center : ℚ × ℚ) (index n : ℕ) : ℚ × ℚ :=
  let angle : ℚ := ((index : ℚ) / (n : ℚ)) * 2 * T.pi
  (center.1 + T.co angle * 280, center.2 + T.si angle * 280)

/-- The marker positions of one rendered frame, in list order. -/
def renderMarkers (T : Trig) (center : ℚ × ℚ) (ss : List AudioSource) :
    List (ℚ × ℚ) :=
  ss.map (markerPoint T center)

/-- The label positions of one rendered frame, in list order. -/
def renderLabels (T : Trig) (center : ℚ × ℚ) (ss : List AudioSource) :
    List (ℚ × ℚ) :=
  (List.range ss.length).map (fun i => labelPoint T center i ss.length)

/-- `drawAudioSource` ends by writing the drawn offset back into the record:
`source.position = { x: x - center.x, y: y - center.y, z: 0 }`. -/
def drawAudioSourceUpdate (T : Trig) (center : ℚ × ℚ) (s : AudioSource) :
    AudioSource :=
  let p := markerPoint T center s
  { s with position := ⟨p.1 - center.1, p.2 - center.2, 0⟩ }

/-- App `toggleSoundVisibility`, applied pointwise to the source list. -/
def toggleStep (soundId : String) (s : AudioSource) : AudioSource :=
  if s.id = soundId then { s with visible := !s.visible } else s

def toggleSoundVisibility (ss : List AudioSource) (soundId : String) :
    List AudioSource :=
  ss.map (toggleStep soundId)

/-- A concrete source such as the recorded-audio generator produces, with a
nonzero z coordinate. -/
def sampleSource : AudioSource :=
  { id := "source-1", name := "Background Noise", type := .noise,
    decibel := 50, frequency := 300, position := ⟨10, 20, 3⟩,
    distance := 8, visible := true, color := .hex "#ff6b6b" }

/-- A second concrete source differing from `sampleSource` in distance. -/
def sampleSource2 : AudioSource :=
  { sampleSource with id := "source-2", distance := 16 }

/-- A concrete ambient source for evaluating the analysis aggregates. -/
def sampleAmbient : AudioSource :=
  { id := "source-3", name := "Ambient Sound", type := .ambient,
    decibel := 60, frequency := 150, position := ⟨5, 5, 5⟩,
    distance := 12, visible := true, color := .hex "#45b7d1" }

/-- A concrete trigonometric record used to evaluate the renderer. -/
def sampleTrig : Trig := { co := fun _ => 1, si := fun _ => 0, pi := 3 }

/-! ## Capture Adapter: loudness computation

`startAnalysis` (AudioRecorder) and `startRealtimeAnalysis` (App) both
compute, per tick, `average = sum / bufferLength` over the byte-valued
frequency bins and `decibel = 20 * log10(average / 255) + 100`, and emit
`Math.max(0, decibel)`. -/

/-- The arithmetic mean of the frequency-bin magnitudes. -/
noncomputable def averageMagnitude (bins : List ℕ) : ℝ :=
  (bins.map (fun b : ℕ => (b : ℝ))).sum / (bins.length : ℝ)

section LoudnessModel

attribute [local instance] Classical.propDecidable

/-- The loudness emitted per tick.  When the average is 0, the source's
`Math.log10(0)` evaluates to negative infinity, so `decibel` is negative
infinity and `Math.max(0, decibel)` is 0; the zero branch encodes exactly
that, since the reals have no infinities. -/
noncomputable def tickLoudness (bins : List ℕ) : ℝ :=
  let average := averageMagnitude bins
  if average = 0 then 0
  else max 0 (20 * Real.logb 10 (average / 255) + 100)

end LoudnessModel

/-! ## Progress Simulator: mock analysis results

`generateAnalysisResults` (AudioAnalyzer) computes `backgroundNoise` as the
sum of the decibel of every ambient-typed source, and
`noiseLevel: backgroundNoise / audioSources.length || 0`. -/

def backgroundNoise (ss : List AudioSource) : ℚ :=
  (ss.map (fun s => if s.type = SourceType.ambient then s.decibel else 0)).sum

/-- `backgroundNoise / audioSources.length || 0`: on the empty list the
division is 0/0, NaN in the source, and `NaN || 0` yields 0; the zero branch
encodes that. -/
def noiseLevel (ss : List AudioSource) : ℚ :=
  if ss.length = 0 then 0 else backgroundNoise ss / (ss.length : ℚ)

/-! ## Report view (ReportGenerator)

With no sources the component returns the "No Analysis Data Available"
presentation before any aggregate is computed.  The aggregates that are
undefined on an empty list (`Math.max(...)` of nothing, a 0/0 average) are
embedded as `Option`-returning functions. -/

structure ReportSummary where
  totalSources : ℕ
  highestDb : ℚ
  averageDb : ℚ
  noisyCount : ℕ
  rows : List AudioSource
  deriving DecidableEq

inductive ReportView where
  | noData
  | report (summary : ReportSummary)
  deriving DecidableEq

/-- `Math.max(...ss.map(s => s.decibel))`: undefined (negative infinity) on
an empty list, hence `none` there. -/
def maxDecibel : List AudioSource → Option ℚ
  | [] => none
  | s :: tl => some (tl.foldl (fun m t => max m t.decibel) s.decibel)

/-- The mean decibel `sum / length`: 0/0 (NaN) on an empty list, hence
`none` there. -/
def averageDecibel (ss : List AudioSource) : Option ℚ :=
  if ss.length = 0 then none
  else some ((ss.map (fun s => s.decibel)).sum / (ss.length : ℚ))

/-- The report as rendered: the guard `audioSources.length === 0` selects
the no-data presentation, otherwise the summary header and one table row per
source. -/
def reportView (ss : List AudioSource) : Option ReportView :=
  if ss.isEmpty then some .noData
  else
    match maxDecibel ss, averageDecibel ss with
    | some hi, some avg =>
        some (.report
          { totalSources := ss.length, highestDb := hi, averageDb := avg,
            noisyCount := (ss.filter (fun s => 70 < s.decibel)).length,
            rows := ss })
    | _, _ => none

/-! ## Mock Source Generators

`analyzeFiles` (AudioUploader) and `analyzeRecordedAudio` (AudioRecorder)
fabricate the source lists.  Randomness is embedded as a stream
`r : ℕ → ℚ` of the successive `Math.random()` results, consumed in the
evaluation order of the source; a stream is valid when every draw lies in
[0, 1). -/

def ValidRng (r : ℕ → ℚ) : Prop := ∀ n, 0 ≤ r n ∧ r n < 1

structure FileMeta where
  name : String
  size : ℕ
  deriving DecidableEq

/-- The fixed five-element category table of `analyzeFiles`. -/
def sourceTypeTable : List SourceType :=
  [.noise, .voice, .music, .ambient, .unknown]

/-- `['noise','voice','music','ambient','unknown'][Math.floor(random()*5)]`. -/
def typeFromDraw (u : ℚ) : SourceType :=
  sourceTypeTable.getD (Int.toNat ⌊u * 5⌋) .unknown

/-- `2 + Math.floor(Math.random() * 3)`: the per-file source count. -/
def numSourcesFromDraw (u : ℚ) : ℕ := 2 + Int.toNat ⌊u * 3⌋

/-- `file.name.split('.')[0]`. -/
def fileBaseName (name : String) : String := (name.splitOn ".").headD ""

/-- One source generated by `analyzeFiles` for file `fileIdx`, source slot
`srcIdx`, drawing the eight random values at stream positions k .. k+7 in
the field evaluation order of the source. -/
def genUploadSource (r : ℕ → ℚ) (k fileIdx srcIdx : ℕ) (fname : String) :
    AudioSource :=
  { id := "file-" ++ toString fileIdx ++ "-source-" ++ toString srcIdx,
    name := fileBaseName fname ++ " - Source " ++ toString (srcIdx + 1),
    type := typeFromDraw (r k),
    decibel := 30 + r (k + 1) * 60,
    frequency := 100 + r (k + 2) * 1000,
    position := ⟨r (k + 3) * 100, r (k + 4) * 100, r (k + 5) * 50⟩,
    distance := 1 + r (k + 6) * 25,
    visible := true,
    color := .hsl (r (k + 7) * 360) }

/-- The `Array.from({length: numSources}, ...)` loop of `analyzeFiles`. -/
def genUploadSources (r : ℕ → ℚ) (fileIdx : ℕ) (fname : String) :
    ℕ → ℕ → ℕ → List AudioSource
  | _, 0, _ => []
  | srcIdx, n + 1, k =>
      genUploadSource r k fileIdx srcIdx fname ::
        genUploadSources r fileIdx fname (srcIdx + 1) n (k + 8)

/-- The `files.flatMap` loop of `analyzeFiles`: each file first draws its
source count, then its sources draw eight values each. -/
def analyzeFilesFrom (r : ℕ → ℚ) : ℕ → ℕ → List FileMeta → List AudioSource
  | _, _, [] => []
  | fileIdx, k, f :: fs =>
      let n := numSourcesFromDraw (r k)
      genUploadSources r fileIdx f.name 0 n (k + 1) ++
        analyzeFilesFrom r (fileIdx + 1) (k + 1 + 8 * n) fs

def analyzeFiles (r : ℕ → ℚ) (files : List FileMeta) : List AudioSource :=
  analyzeFilesFrom r 0 0 files

/-- `analyzeRecordedAudio` (AudioRecorder): three fixed mock sources whose
categories and colors are hard-coded; only decibel, frequency, position and
distance draw random values. -/
def analyzeRecordedAudio (r : ℕ → ℚ) : List AudioSource :=
  [ { id := "source-1", name := "Background Noise", type := .noise,
      decibel := 45 + r 0 * 20, frequency := 200 + r 1 * 400,
      position := ⟨r 2 * 100, r 3 * 100, r 4 * 50⟩,
      distance := 5 + r 5 * 15, visible := true, color := .hex "#ff6b6b" },
    { id := "source-2", name := "Voice Activity", type := .voice,
      decibel := 60 + r 6 * 25, frequency := 300 + r 7 * 500,
      position := ⟨r 8 * 100, r 9 * 100, r 10 * 50⟩,
      distance := 2 + r 11 * 8, visible := true, color := .hex "#4ecdc4" },
    { id := "source-3", name := "Ambient Sound", type := .ambient,
      decibel := 35 + r 12 * 15, frequency := 100 + r 13 * 300,
      position := ⟨r 14 * 100, r 15 * 100, r 16 * 50⟩,
      distance := 10 + r 17 * 20, visible := true, color := .hex "#45b7d1" } ]

/-! ## App-level dataset size bookkeeping

`handleFileSelect` (AudioUploader) reports the uploaded files' total byte
size divided by 1024 * 1024 through `onDatasetSizeChange`; once the mock
analysis finishes, `handleAudioAnalysis` (App) overwrites `datasetSize` with
`sources.reduce((acc, source) => acc + source.frequency * 0.001, 0)`. -/

def uploadDatasetSizeMB (files : List FileMeta) : ℚ :=
  (((files.map (fun f => f.size)).sum : ℕ) : ℚ) / (1024 * 1024)

def analysisDatasetSize (ss : List AudioSource) : ℚ :=
  (ss.map (fun s => s.frequency * (1 / 1000))).sum

/-- The successive values taken by App's `datasetSize` during the upload
flow: the byte-derived value at file-select time, then the frequency-derived
value once `analyzeFiles` completes and `handleAudioAnalysis` runs. -/
def uploadFlowDatasetSizes (r : ℕ → ℚ) (files : List FileMeta) : List ℚ :=
  [uploadDatasetSizeMB files, analysisDatasetSize (analyzeFiles r files)]

/-- The dataset size left displayed after the upload flow settles. -/
def finalDatasetSize (r : ℕ → ℚ) (files : List FileMeta) : ℚ :=
  analysisDatasetSize (analyzeFiles r files)

/-! ## Progress Simulator (AudioAnalyzer)

`analysisStages` is a fixed table of six named stages with durations in
milliseconds.  `startAnalysis` iterates the stages; inside stage `i` it
repeatedly (about every 50 ms) reports
`totalProgress + min(elapsed / duration, 1) * (duration / totalDuration) * 100`
where `totalProgress` is the accumulated weight of the finished stages. -/

def stageDurations : List ℕ := [1000, 1500, 2000, 1200, 800, 500]

def totalDuration : ℕ := stageDurations.sum

/-- The duration of stage `i`. -/
def stageDur (i : ℕ) : ℕ := stageDurations.getD i 0

/-- The sum of the durations of the stages before stage `i`. -/
def sumBefore (i : ℕ) : ℕ := (stageDurations.take i).sum

/-- The accumulated `totalProgress` on entry to stage `i`: each finished
stage contributed `(duration / totalDuration) * 100`. -/
def cumulativeBefore (i : ℕ) : ℚ :=
  ((stageDurations.take i).map
    (fun d => ((d : ℚ) / (totalDuration : ℚ)) * 100)).sum

/-- The percentage reported by a poll inside stage `i` at in-stage elapsed
time `e` milliseconds. -/
def reportedProgress (i : ℕ) (e : ℚ) : ℚ :=
  cumulativeBefore i +
    min (e / (stageDur i : ℚ)) 1 * ((stageDur i : ℚ) / (totalDuration : ℚ)) * 100

/-! ## Supporting lemmas -/

theorem takeLast_length (n : ℕ) (l : List ℚ) :
    (takeLast n l).length = min n l.length := by
  simp only [takeLast, List.length_drop]
  omega

theorem takeLast_eq_reverse_take (n : ℕ) (l : List ℚ) :
    takeLast n l = (l.reverse.take n).reverse := by
  rw [List.take_reverse, List.reverse_reverse, takeLast]

theorem takeLast_append_takeLast (n : ℕ) (a b : List ℚ) :
    takeLast n (takeLast n a ++ b) = takeLast n (a ++ b) := by
  simp only [takeLast_eq_reverse_take, List.reverse_append, List.reverse_reverse]
  rw [List.take_append_eq_append_take, List.take_append_eq_append_take,
    List.take_take]
  have hmin : min (n - b.reverse.length) n = n - b.reverse.length := by omega
  rw [hmin]

theorem takeLast_suffix (n : ℕ) (l : List ℚ) : takeLast n l <:+ l :=
  List.drop_suffix _ _

theorem chartRun_foldl (ds : List ℚ) :
    ∀ h : List ℚ, h.length ≤ maxDataPoints →
      ds.foldl chartStep h = takeLast maxDataPoints (h ++ positiveSamples ds) := by
  induction ds with
  | nil =>
      intro h hlen
      simp only [List.foldl_nil, positiveSamples, List.filter_nil, List.append_nil, takeLast]
      rw [Nat.sub_eq_zero_of_le hlen, List.drop_zero]
  | cons d tl ih =>
      intro h hlen
      by_cases hd : 0 < d
      · have hstep : chartStep h d = takeLast maxDataPoints (h ++ [d]) := by
          simp [chartStep, hd]
        have hlen' : (chartStep h d).length ≤ maxDataPoints := by
          rw [hstep, takeLast_length]; omega
        calc (d :: tl).foldl chartStep h
            = tl.foldl chartStep (chartStep h d) := rfl
          _ = takeLast maxDataPoints (chartStep h d ++ positiveSamples tl) :=
              ih _ hlen'
          _ = takeLast maxDataPoints ((h ++ [d]) ++ positiveSamples tl) := by
              rw [hstep, takeLast_append_takeLast]
          _ = takeLast maxDataPoints (h ++ positiveSamples (d :: tl)) := by
              simp [positiveSamples, hd]
      · have hstep : chartStep h d = h := by simp [chartStep, hd]
        calc (d :: tl).foldl chartStep h
            = tl.foldl chartStep (chartStep h d) := rfl
          _ = takeLast maxDataPoints (h ++ positiveSamples tl) := by
              rw [hstep]; exact ih _ hlen
          _ = takeLast maxDataPoints (h ++ positiveSamples (d :: tl)) := by
              simp [positiveSamples, hd]

theorem chartRun_eq (ds : List ℚ) :
    chartRun ds = takeLast maxDataPoints (positiveSamples ds) := by
  have := chartRun_foldl ds [] (by simp [maxDataPoints])
  simpa [chartRun] using this

theorem handleMouseDown_x (s : SonarState) (px py : ℚ) :
    (handleMouseDown s px py).x = s.x := by
  unfold handleMouseDown; split <;> rfl

theorem handleMouseDown_y (s : SonarState) (px py : ℚ) :
    (handleMouseDown s px py).y = s.y := by
  unfold handleMouseDown; split <;> rfl

theorem handleMouseMove_bounds (s : SonarState) (px py : ℚ)
    (hs : listenerInBounds s) : listenerInBounds (handleMouseMove s px py) := by
  unfold handleMouseMove
  split
  · refine ⟨le_max_left _ _, ?_, le_max_left _ _, ?_⟩
    · exact max_le (by norm_num [canvasW]) (min_le_right _ _)
    · exact max_le (by norm_num [canvasH]) (min_le_right _ _)
  · exact hs

theorem listenerInBounds_step (s : SonarState) (e : PointerEvent)
    (hs : listenerInBounds s) : listenerInBounds (sonarStep s e) := by
  cases e with
  | down px py =>
      show listenerInBounds (handleMouseDown s px py)
      unfold listenerInBounds
      rw [handleMouseDown_x, handleMouseDown_y]
      exact hs
  | move px py =>
      exact handleMouseMove_bounds s px py hs
  | up =>
      exact hs

theorem listenerInBounds_initial : listenerInBounds initialSonarState := by
  unfold listenerInBounds initialSonarState canvasW canvasH
  norm_num

theorem listenerInBounds_run (es : List PointerEvent) :
    listenerInBounds (runSonar es) := by
  have main : ∀ (l : List PointerEvent) (s : SonarState), listenerInBounds s →
      listenerInBounds (l.foldl sonarStep s) := by
    intro l
    induction l with
    | nil => intro s hs; exact hs
    | cons e tl ih => intro s hs; exact ih _ (listenerInBounds_step s e hs)
  exact main es initialSonarState listenerInBounds_initial

theorem sum_map_cast_of_all_eq (bins : List ℕ) (v : ℕ)
    (h : ∀ b ∈ bins, b = v) :
    (bins.map (fun b : ℕ => (b : ℝ))).sum = (bins.length : ℝ) * (v : ℝ) := by
  induction bins with
  | nil => simp
  | cons b tl ih =>
      have hb : b = v := h b (List.mem_cons_self b tl)
      have htl : ∀ x ∈ tl, x = v := fun x hx => h x (List.mem_cons_of_mem b hx)
      rw [List.map_cons, List.sum_cons, ih htl, hb, List.length_cons]
      push_cast
      ring

theorem averageMagnitude_const (bins : List ℕ) (v : ℕ) (hne : bins ≠ [])
    (h : ∀ b ∈ bins, b = v) : averageMagnitude bins = (v : ℝ) := by
  have hlen : (bins.length : ℝ) ≠ 0 := by simpa using hne
  rw [averageMagnitude, sum_map_cast_of_all_eq bins v h, mul_comm,
    mul_div_assoc, div_self hlen, mul_one]

theorem backgroundNoise_eq_filter_sum (ss : List AudioSource) :
    backgroundNoise ss =
      ((ss.filter (fun s => s.type = SourceType.ambient)).map
        (fun s => s.decibel)).sum := by
  induction ss with
  | nil => rfl
  | cons s tl ih =>
      by_cases hs : s.type = SourceType.ambient <;>
        simp [backgroundNoise, List.filter_cons, hs] <;>
        simpa [backgroundNoise] using ih

theorem getD_mem {α : Type} (l : List α) (n : ℕ) (d : α) (h : n < l.length) :
    l.getD n d ∈ l := by
  induction l generalizing n with
  | nil => simp at h
  | cons a tl ih =>
      cases n with
      | zero => simp [List.getD]
      | succ m =>
          rw [List.getD_cons_succ]
          exact List.mem_cons_of_mem a (ih m (by simpa using h))

theorem typeFromDraw_mem (u : ℚ) (h0 : 0 ≤ u) (h1 : u < 1) :
    typeFromDraw u ∈ sourceTypeTable := by
  apply getD_mem
  simp only [sourceTypeTable, List.length_cons, List.length_nil]
  have hub5 : u * 5 < 5 := by nlinarith
  have hf : ⌊u * 5⌋ < (5 : ℤ) := by
    rw [Int.floor_lt]
    push_cast
    linarith
  omega

theorem numSourcesFromDraw_bounds (u : ℚ) (h0 : 0 ≤ u) (h1 : u < 1) :
    2 ≤ numSourcesFromDraw u ∧ numSourcesFromDraw u ≤ 4 := by
  unfold numSourcesFromDraw
  have hub : u * 3 < 3 := by nlinarith
  have hf : ⌊u * 3⌋ < (3 : ℤ) := by
    rw [Int.floor_lt]
    push_cast
    linarith
  omega

theorem genUploadSources_length (r : ℕ → ℚ) (fileIdx : ℕ) (fname : String) :
    ∀ (n srcIdx k : ℕ),
      (genUploadSources r fileIdx fname srcIdx n k).length = n := by
  intro n
  induction n with
  | zero => intro srcIdx k; rfl
  | succ m ih =>
      intro srcIdx k
      simp only [genUploadSources, List.length_cons, ih]

theorem mem_genUploadSources (r : ℕ → ℚ) (fileIdx : ℕ) (fname : String) :
    ∀ (n srcIdx k : ℕ) (s : AudioSource),
      s ∈ genUploadSources r fileIdx fname srcIdx n k →
      ∃ m i, s = genUploadSource r m fileIdx i fname := by
  intro n
  induction n with
  | zero => intro srcIdx k s hs; simp [genUploadSources] at hs
  | succ m ih =>
      intro srcIdx k s hs
      rw [genUploadSources, List.mem_cons] at hs
      rcases hs with h | h
      · exact ⟨k, srcIdx, h⟩
      · exact ih (srcIdx + 1) (k + 8) s h

theorem genUploadSource_props (r : ℕ → ℚ) (hr : ValidRng r)
    (k fileIdx srcIdx : ℕ) (fname : String) :
    (genUploadSource r k fileIdx srcIdx fname).visible = true ∧
    (genUploadSource r k fileIdx srcIdx fname).type ∈ sourceTypeTable ∧
    30 ≤ (genUploadSource r k fileIdx srcIdx fname).decibel ∧
    (genUploadSource r k fileIdx srcIdx fname).decibel < 90 := by
  obtain ⟨h0, h1⟩ := hr k
  obtain ⟨g0, g1⟩ := hr (k + 1)
  refine ⟨rfl, typeFromDraw_mem (r k) h0 h1, ?_, ?_⟩
  · show (30 : ℚ) ≤ 30 + r (k + 1) * 60
    nlinarith
  · show (30 : ℚ) + r (k + 1) * 60 < 90
    nlinarith

theorem analyzeFilesFrom_length (r : ℕ → ℚ) (hr : ValidRng r) :
    ∀ (files : List FileMeta) (fileIdx k : ℕ),
      2 * files.length ≤ (analyzeFilesFrom r fileIdx k files).length ∧
      (analyzeFilesFrom r fileIdx k files).length ≤ 4 * files.length := by
  intro files
  induction files with
  | nil => intro fileIdx k; simp [analyzeFilesFrom]
  | cons f fs ih =>
      intro fileIdx k
      obtain ⟨hn2, hn4⟩ := numSourcesFromDraw_bounds (r k) (hr k).1 (hr k).2
      obtain ⟨ih2, ih4⟩ := ih (fileIdx + 1) (k + 1 + 8 * numSourcesFromDraw (r k))
      rw [analyzeFilesFrom]
      simp only [List.length_append, List.length_cons,
        genUploadSources_length]
      omega

theorem mem_analyzeFilesFrom (r : ℕ → ℚ) :
    ∀ (files : List FileMeta) (fileIdx k : ℕ) (s : AudioSource),
      s ∈ analyzeFilesFrom r fileIdx k files →
      ∃ m fi i fn, s = genUploadSource r m fi i fn := by
  intro files
  induction files with
  | nil => intro fileIdx k s hs; simp [analyzeFilesFrom] at hs
  | cons f fs ih =>
      intro fileIdx k s hs
      rw [analyzeFilesFrom, List.mem_append] at hs
      rcases hs with h | h
      · obtain ⟨m, i, hmi⟩ :=
          mem_genUploadSources r fileIdx f.name _ 0 (k + 1) s h
        exact ⟨m, fileIdx, i, f.name, hmi⟩
      · exact ih (fileIdx + 1) _ s h

theorem typeFromDraw_at (u : ℚ) (z : ℤ) (h : u * 5 = (z : ℚ)) :
    typeFromDraw u = sourceTypeTable.getD z.toNat .unknown := by
  rw [typeFromDraw, h, Int.floor_intCast]

theorem sum_map_mul_const (ss : List AudioSource) :
    (ss.map (fun s => s.frequency * (1 / 1000))).sum =
      (ss.map (fun s => s.frequency)).sum / 1000 := by
  induction ss with
  | nil => simp
  | cons s tl ih =>
      simp only [List.map_cons, List.sum_cons, ih]
      ring

theorem min_weight (e d : ℚ) (hd : 0 < d) :
    min (e / d) 1 * (d / 7000) * 100 = 100 * min e d / 7000 := by
  rw [min_mul_of_nonneg _ _ (by positivity : (0 : ℚ) ≤ d / 7000)]
  have h1 : e / d * (d / 7000) = e / 7000 := by
    field_simp
  rw [h1, one_mul, min_div_div_right (by norm_num : (0 : ℚ) ≤ 7000)]
  ring

theorem reportedProgress_eq (i : ℕ) (hi : i < 6) (e : ℚ) :
    reportedProgress i e =
      100 * (((sumBefore i : ℚ)) + min e ((stageDur i : ℚ))) / 7000 := by
  have hD : ((totalDuration : ℕ) : ℚ) = 7000 := by
    norm_num [totalDuration, stageDurations]
  have hd : (0 : ℚ) < (stageDur i : ℚ) := by
    interval_cases i <;> norm_num [stageDur, stageDurations]
  have hcum : cumulativeBefore i = 100 * (sumBefore i : ℚ) / 7000 := by
    interval_cases i <;>
      simp [cumulativeBefore, sumBefore, stageDurations, totalDuration] <;>
      norm_num
  rw [reportedProgress, hD, min_weight e _ hd, hcum]
  ring

theorem sumBefore_add_stageDur_le (i j : ℕ) (hij : i < j) (hj : j < 6) :
    sumBefore i + stageDur i ≤ sumBefore j := by
  have h : ∀ j : ℕ, j < 6 → ∀ i : ℕ, i < j → sumBefore i + stageDur i ≤ sumBefore j := by
    decide
  exact h j hj i hij

theorem sumBefore_add_stageDur_le_total (i : ℕ) (hi : i < 6) :
    sumBefore i + stageDur i ≤ 7000 := by
  have h : ∀ i : ℕ, i < 6 → sumBefore i + stageDur i ≤ 7000 := by decide
  exact h i hi

/-! ## Claim theorems (C1, C2) -/

/-- C1: as literally stated the claim fails.  Delivering the single sample 0
(a value the capture adapter really emits, for example for an all-zero
frequency frame) gives totalSamplesSeen = 1, yet the stored history is empty,
so its length is not min(totalSamplesSeen, capacity) = 1. -/
theorem chart_history_length_counterexample :
    (chartRun [0]).length ≠ min 1 maxDataPoints := by
  decide

/-- C1 (amended): the history is always exactly the most recent 100 strictly
positive delivered samples in arrival order, so its length is
min(positiveSamplesSeen, 100), never exceeds 100, and eviction is FIFO (the
history is a suffix of the appended-sample sequence). -/
theorem chart_history_spec (ds : List ℚ) :
    chartRun ds = takeLast maxDataPoints (positiveSamples ds) ∧
    (chartRun ds).length = min (positiveSamples ds).length maxDataPoints ∧
    (chartRun ds).length ≤ maxDataPoints ∧
    chartRun ds <:+ positiveSamples ds := by
  refine ⟨chartRun_eq ds, ?_, ?_, ?_⟩
  · rw [chartRun_eq, takeLast_length]; omega
  · rw [chartRun_eq, takeLast_length]; omega
  · rw [chartRun_eq]; exact takeLast_suffix _ _

/-- C2: for every pointer event sequence on the 500 by 500 sonar canvas, the
listener position satisfies 20 ≤ x ≤ 480 and 20 ≤ y ≤ 480 in every reachable
state, including the initial state (250, 250). -/
theorem listener_position_invariant (es : List PointerEvent) :
    (20 ≤ (runSonar es).x ∧ (runSonar es).x ≤ canvasW - 20 ∧
     20 ≤ (runSonar es).y ∧ (runSonar es).y ≤ canvasH - 20) ∧
    (20 ≤ initialSonarState.x ∧ initialSonarState.x ≤ canvasW - 20 ∧
     20 ≤ initialSonarState.y ∧ initialSonarState.y ≤ canvasH - 20) :=
  ⟨listenerInBounds_run es, listenerInBounds_initial⟩

/-! ## Claim theorems (C3, C7, C10) -/

/-- C3: for every nonempty frame of byte-valued frequency bins, the emitted
loudness is max(0, 20 * log10(mean / 255) + 100) (taking the value 0 when the
mean is 0, where log10 is negative infinity), so it is always nonnegative, an
all-zero frame yields exactly 0, and an all-255 frame yields exactly 100. -/
theorem tick_loudness_spec (bins : List ℕ) (hne : bins ≠ [])
    (hb : ∀ b ∈ bins, b ≤ 255) :
    0 ≤ tickLoudness bins ∧
    (averageMagnitude bins ≠ 0 →
      tickLoudness bins =
        max 0 (20 * Real.logb 10 (averageMagnitude bins / 255) + 100)) ∧
    ((∀ b ∈ bins, b = 0) → tickLoudness bins = 0) ∧
    ((∀ b ∈ bins, b = 255) → tickLoudness bins = 100) := by
  refine ⟨?_, ?_, ?_, ?_⟩
  · unfold tickLoudness
    dsimp only
    split
    · exact le_refl 0
    · exact le_max_left 0 _
  · intro havg
    unfold tickLoudness
    dsimp only
    rw [if_neg havg]
  · intro hzero
    have : averageMagnitude bins = 0 := by
      simpa using averageMagnitude_const bins 0 hne hzero
    unfold tickLoudness
    dsimp only
    rw [if_pos this]
  · intro h255
    have havg : averageMagnitude bins = 255 :=
      averageMagnitude_const bins 255 hne h255
    unfold tickLoudness
    dsimp only
    rw [if_neg (by rw [havg]; norm_num), havg]
    norm_num

/-- Witness for C3: a concrete two-bin frame of magnitude 255 has
nonnegative loudness, exactly 100. -/
theorem tick_loudness_witness :
    0 ≤ tickLoudness [255, 255] ∧ tickLoudness [255, 255] = 100 := by
  have h := tick_loudness_spec [255, 255] (by simp)
    (by intro b hb; simp at hb; omega)
  exact ⟨h.1, h.2.2.2 (by intro b hb; simp at hb; omega)⟩

/-- C7: with an empty source list the report renders the explicit no-data
presentation, the sonar frame draws no markers and no labels, and the report
view is defined (`isSome`) for every source list — no aggregate over an empty
collection is ever evaluated. -/
theorem empty_state_handling (T : Trig) (c : ℚ × ℚ) :
    reportView [] = some ReportView.noData ∧
    (∀ ss : List AudioSource, (reportView ss).isSome = true) ∧
    renderMarkers T c [] = [] ∧
    renderLabels T c [] = [] := by
  refine ⟨rfl, ?_, rfl, rfl⟩
  intro ss
  cases ss with
  | nil => rfl
  | cons s tl =>
      simp [reportView, maxDecibel, averageDecibel]

/-- C10: the mock analysis result's noiseLevel is the sum of the decibel
values of the ambient-typed sources divided by the number of sources of all
types; on the empty list it is 0. -/
theorem noise_level_spec (ss : List AudioSource) (h : ss ≠ []) :
    noiseLevel ss =
      ((ss.filter (fun s => s.type = SourceType.ambient)).map
        (fun s => s.decibel)).sum / (ss.length : ℚ) ∧
    noiseLevel ([] : List AudioSource) = 0 := by
  constructor
  · have hlen : ss.length ≠ 0 := by simpa using h
    rw [noiseLevel, if_neg hlen, backgroundNoise_eq_filter_sum]
  · rfl

/-- Witness for C10: one ambient source at 60 dB next to one noise source
gives noiseLevel 60 / 2 = 30 — the divisor is the total count 2, not the
ambient count 1. -/
theorem noise_level_witness :
    noiseLevel [sampleAmbient, sampleSource] = 30 := by
  have h := (noise_level_spec [sampleAmbient, sampleSource] (by simp)).1
  have hfilter : [sampleAmbient, sampleSource].filter
      (fun s => s.type = SourceType.ambient) = [sampleAmbient] := rfl
  rw [h, hfilter]
  norm_num [sampleAmbient]

/-! ## Claim theorem (C4) -/

/-- C4: the stage durations sum to 7000 ms; along any run the reported
cumulative percentage is monotonically non-decreasing (polls are ordered
lexicographically by stage index and in-stage elapsed time); and a report of
exactly 100 forces the absolute elapsed time — which is at least the sum of
the completed stages' durations plus the in-stage elapsed time — to be at
least 7000 ms. -/
theorem progress_monotone_and_complete :
    stageDurations.sum = 7000 ∧
    (∀ i j : ℕ, ∀ e f : ℚ, i < 6 → j < 6 → 0 ≤ e → 0 ≤ f →
      (i < j ∨ (i = j ∧ e ≤ f)) →
      reportedProgress i e ≤ reportedProgress j f) ∧
    (∀ i : ℕ, ∀ e : ℚ, i < 6 → 0 ≤ e → reportedProgress i e = 100 →
      7000 ≤ (sumBefore i : ℚ) + e) := by
  refine ⟨by decide, ?_, ?_⟩
  · intro i j e f hi hj he hf hlex
    rw [reportedProgress_eq i hi e, reportedProgress_eq j hj f]
    have hdi : (0 : ℚ) ≤ (stageDur i : ℚ) := by positivity
    have hdj : (0 : ℚ) ≤ (stageDur j : ℚ) := by positivity
    have hnum : (sumBefore i : ℚ) + min e (stageDur i : ℚ) ≤
        (sumBefore j : ℚ) + min f (stageDur j : ℚ) := by
      rcases hlex with hij | ⟨rfl, hef⟩
      · have h1 : (sumBefore i : ℚ) + min e (stageDur i : ℚ) ≤
            (sumBefore i : ℚ) + (stageDur i : ℚ) := by
          have := min_le_right e ((stageDur i : ℚ))
          linarith
        have h2 : (sumBefore i : ℚ) + (stageDur i : ℚ) ≤ (sumBefore j : ℚ) := by
          have := sumBefore_add_stageDur_le i j hij hj
          exact_mod_cast this
        have h3 : (0 : ℚ) ≤ min f (stageDur j : ℚ) := le_min hf hdj
        linarith
      · have := min_le_min hef (le_refl ((stageDur i : ℚ)))
        linarith
    linarith
  · intro i e hi he heq
    rw [reportedProgress_eq i hi e] at heq
    have hsum : (sumBefore i : ℚ) + min e (stageDur i : ℚ) = 7000 := by
      field_simp at heq
      linarith
    have := min_le_left e ((stageDur i : ℚ))
    linarith

/-- Witness for C4 at concrete polls: the first poll of stage 0 reports no
more than a poll of stage 5 at in-stage time 500 ms, and the latter poll —
which reports exactly 100 — can only happen at absolute elapsed time
at least 7000 ms. -/
theorem progress_witness :
    reportedProgress 0 0 ≤ reportedProgress 5 500 ∧
    (7000 : ℚ) ≤ (sumBefore 5 : ℚ) + 500 := by
  have h100 : reportedProgress 5 500 = 100 := by
    rw [reportedProgress_eq 5 (by norm_num) 500]
    norm_num [sumBefore, stageDur, stageDurations]
  constructor
  · exact progress_monotone_and_complete.2.1 0 5 0 500 (by norm_num)
      (by norm_num) le_rfl (by norm_num) (Or.inl (by norm_num))
  · exact progress_monotone_and_complete.2.2 5 500 (by norm_num)
      (by norm_num) h100

/-! ## Claim theorems (C5, C8) -/

/-- C5: the claim that the reported dataset size stays proportional to the
uploaded bytes is false.  Uploading one 2 MB file with an all-zero random
stream first reports 2.00 MB, but when the mock analysis completes,
handleAudioAnalysis overwrites the value with the frequency-derived
1/5 MB, which is what the report then displays. -/
theorem dataset_size_counterexample :
    uploadDatasetSizeMB [⟨"evidence.mp3", 2097152⟩] = 2 ∧
    finalDatasetSize (fun _ => 0) [⟨"evidence.mp3", 2097152⟩] = 1 / 5 ∧
    (1 / 5 : ℚ) ≠ 2 := by
  have hn0 : numSourcesFromDraw ((fun _ : ℕ => (0 : ℚ)) 0) = 2 := by
    norm_num [numSourcesFromDraw]
  have hg : ∀ si k : ℕ,
      genUploadSources (fun _ => (0 : ℚ)) 0 "evidence.mp3" si 2 k =
        [genUploadSource (fun _ => (0 : ℚ)) k 0 si "evidence.mp3",
         genUploadSource (fun _ => (0 : ℚ)) (k + 8) 0 (si + 1) "evidence.mp3"] := by
    intro si k
    rfl
  have hA : analyzeFiles (fun _ => (0 : ℚ)) [⟨"evidence.mp3", 2097152⟩] =
      [genUploadSource (fun _ => (0 : ℚ)) 1 0 0 "evidence.mp3",
       genUploadSource (fun _ => (0 : ℚ)) 9 0 1 "evidence.mp3"] := by
    rw [analyzeFiles, analyzeFilesFrom]
    simp only [hn0, hg, analyzeFilesFrom, List.append_nil]
  refine ⟨by norm_num [uploadDatasetSizeMB], ?_, by norm_num⟩
  rw [finalDatasetSize, hA]
  norm_num [analysisDatasetSize, genUploadSource]

/-- C5 (amended): at file-select time the reported dataset size is the
uploaded bytes divided by 1024 * 1024; after the mock analysis completes it
is overwritten with the sum of the generated sources' frequencies divided by
1000, and that is the value the report displays alongside exactly one table
row per generated source. -/
theorem dataset_size_flow_spec (r : ℕ → ℚ) (files : List FileMeta)
    (ss : List AudioSource) (h : ss ≠ []) :
    (uploadFlowDatasetSizes r files).head? = some (uploadDatasetSizeMB files) ∧
    (uploadFlowDatasetSizes r files).getLast? = some (finalDatasetSize r files) ∧
    finalDatasetSize r files =
      ((analyzeFiles r files).map (fun s => s.frequency)).sum / 1000 ∧
    (∃ summary, reportView ss = some (ReportView.report summary) ∧
      summary.rows.length = ss.length) := by
  refine ⟨rfl, rfl, ?_, ?_⟩
  · rw [finalDatasetSize, analysisDatasetSize, sum_map_mul_const]
  · cases ss with
    | nil => exact absurd rfl h
    | cons s tl =>
        refine ⟨{ totalSources := (s :: tl).length,
                  highestDb := tl.foldl (fun m t => max m t.decibel) s.decibel,
                  averageDb := ((s :: tl).map (fun x => x.decibel)).sum /
                    (((s :: tl).length : ℕ) : ℚ),
                  noisyCount := ((s :: tl).filter (fun x => 70 < x.decibel)).length,
                  rows := s :: tl }, ?_, rfl⟩
        simp [reportView, maxDecibel, averageDecibel]

/-- Witness for C5 (amended) at a concrete 1 MB upload with a constant
one-half random stream. -/
theorem dataset_size_flow_witness :
    (uploadFlowDatasetSizes (fun _ => 1 / 2) [⟨"a.mp3", 1048576⟩]).head? =
      some (uploadDatasetSizeMB [⟨"a.mp3", 1048576⟩]) ∧
    finalDatasetSize (fun _ => 1 / 2) [⟨"a.mp3", 1048576⟩] =
      ((analyzeFiles (fun _ => 1 / 2) [⟨"a.mp3", 1048576⟩]).map
        (fun s => s.frequency)).sum / 1000 := by
  have h := dataset_size_flow_spec (fun _ => 1 / 2) [⟨"a.mp3", 1048576⟩]
    [sampleSource] (by simp)
  exact ⟨h.1, h.2.2.1⟩

/-- C8: the claim that every generated source receives a uniformly random
category from the five-element set is false for the recorded-audio
generator: whatever the random stream, its three sources have the fixed
categories noise, voice, ambient — the category music can never occur. -/
theorem mock_generator_counterexample :
    (¬ ∃ r : ℕ → ℚ, SourceType.music ∈
      ((analyzeRecordedAudio r).map (fun s => s.type))) ∧
    (analyzeRecordedAudio (fun _ => 1 / 2)).map (fun s => s.type) =
      [SourceType.noise, SourceType.voice, SourceType.ambient] := by
  constructor
  · rintro ⟨r, hmem⟩
    simp [analyzeRecordedAudio] at hmem
  · rfl

/-- C8 (amended): for a valid random stream, the upload generator produces
2 to 4 sources per file, all initially visible, each with a category drawn
from the fixed five-element table by the uniform index (every category is
attainable) and a decibel in the fixed range [30, 90) shared by all
categories; the recorded-audio generator instead always produces exactly the
three fixed categories noise, voice, ambient with category-specific decibel
ranges [45, 65), [60, 85), [35, 50), all initially visible. -/
theorem mock_generator_spec (r : ℕ → ℚ) (files : List FileMeta)
    (hr : ValidRng r) :
    (∀ u : ℚ, 0 ≤ u → u < 1 →
      2 ≤ numSourcesFromDraw u ∧ numSourcesFromDraw u ≤ 4) ∧
    2 * files.length ≤ (analyzeFiles r files).length ∧
    (analyzeFiles r files).length ≤ 4 * files.length ∧
    (∀ s ∈ analyzeFiles r files, s.visible = true ∧
      s.type ∈ sourceTypeTable ∧ 30 ≤ s.decibel ∧ s.decibel < 90) ∧
    (∀ t : SourceType, ∃ u : ℚ, 0 ≤ u ∧ u < 1 ∧ typeFromDraw u = t) ∧
    ((analyzeRecordedAudio r).map (fun s => s.type) =
      [SourceType.noise, SourceType.voice, SourceType.ambient]) ∧
    (∃ s1 s2 s3 : AudioSource, analyzeRecordedAudio r = [s1, s2, s3] ∧
      s1.visible = true ∧ 45 ≤ s1.decibel ∧ s1.decibel < 65 ∧
      s2.visible = true ∧ 60 ≤ s2.decibel ∧ s2.decibel < 85 ∧
      s3.visible = true ∧ 35 ≤ s3.decibel ∧ s3.decibel < 50) := by
  refine ⟨fun u h0 h1 => numSourcesFromDraw_bounds u h0 h1,
    (analyzeFilesFrom_length r hr files 0 0).1,
    (analyzeFilesFrom_length r hr files 0 0).2, ?_, ?_, rfl, ?_⟩
  · intro s hs
    obtain ⟨m, fi, i, fn, rfl⟩ := mem_analyzeFilesFrom r files 0 0 s hs
    exact genUploadSource_props r hr m fi i fn
  · intro t
    cases t with
    | noise =>
        refine ⟨0, le_rfl, by norm_num, ?_⟩
        rw [typeFromDraw_at 0 0 (by norm_num)]
        rfl
    | voice =>
        refine ⟨1 / 5, by norm_num, by norm_num, ?_⟩
        rw [typeFromDraw_at (1 / 5) 1 (by norm_num)]
        rfl
    | music =>
        refine ⟨2 / 5, by norm_num, by norm_num, ?_⟩
        rw [typeFromDraw_at (2 / 5) 2 (by norm_num)]
        rfl
    | ambient =>
        refine ⟨3 / 5, by norm_num, by norm_num, ?_⟩
        rw [typeFromDraw_at (3 / 5) 3 (by norm_num)]
        rfl
    | unknown =>
        refine ⟨4 / 5, by norm_num, by norm_num, ?_⟩
        rw [typeFromDraw_at (4 / 5) 4 (by norm_num)]
        rfl
  · obtain ⟨a0, a1⟩ := hr 0
    obtain ⟨b0, b1⟩ := hr 6
    obtain ⟨c0, c1⟩ := hr 12
    refine ⟨_, _, _, rfl, rfl, ?_, ?_, rfl, ?_, ?_, rfl, ?_, ?_⟩
    · show (45 : ℚ) ≤ 45 + r 0 * 20
      linarith
    · show (45 : ℚ) + r 0 * 20 < 65
      linarith
    · show (60 : ℚ) ≤ 60 + r 6 * 25
      linarith
    · show (60 : ℚ) + r 6 * 25 < 85
      linarith
    · show (35 : ℚ) ≤ 35 + r 12 * 15
      linarith
    · show (35 : ℚ) + r 12 * 15 < 50
      linarith

/-- Witness for C8 (amended): a single concrete file with a constant
one-half random stream yields between 2 and 4 sources. -/
theorem mock_generator_witness :
    2 * ([(⟨"a.mp3", 100⟩ : FileMeta)]).length ≤
      (analyzeFiles (fun _ => 1 / 2) [⟨"a.mp3", 100⟩]).length ∧
    (analyzeFiles (fun _ => 1 / 2) [⟨"a.mp3", 100⟩]).length ≤
      4 * ([(⟨"a.mp3", 100⟩ : FileMeta)]).length := by
  have hr : ValidRng (fun _ => (1 : ℚ) / 2) := by
    intro n
    constructor <;> norm_num
  have h := mock_generator_spec (fun _ => 1 / 2) [⟨"a.mp3", 100⟩] hr
  exact ⟨h.2.1, h.2.2.1⟩

/-! ## Claim theorems (C6, C9) -/

/-- C6: the claim that rendering leaves every field other than `visible`
unchanged is false.  Rendering `sampleSource` (position (10, 20, 3)) with any
trigonometric interpretation overwrites its position; here the z coordinate
becomes 0. -/
theorem source_immutability_counterexample :
    (drawAudioSourceUpdate sampleTrig (250, 250) sampleSource).position ≠
      sampleSource.position := by
  intro h
  have hz := congrArg Pos3.z h
  norm_num [drawAudioSourceUpdate, markerPoint, sampleSource, sampleTrig] at hz

/-- C6 (amended): the visibility toggle changes only the `visible` flag (and
only on the source whose id matches), and the sonar renderer changes only the
`position` field, overwriting it with the drawn marker's offset from the
listener (z becomes 0); id, name, type, decibel, frequency, distance and
color are unchanged by both operations. -/
theorem source_mutation_frame (T : Trig) (c : ℚ × ℚ) (sid : String)
    (s : AudioSource) :
    ((toggleStep sid s).id = s.id ∧ (toggleStep sid s).name = s.name ∧
     (toggleStep sid s).type = s.type ∧ (toggleStep sid s).decibel = s.decibel ∧
     (toggleStep sid s).frequency = s.frequency ∧
     (toggleStep sid s).position = s.position ∧
     (toggleStep sid s).distance = s.distance ∧
     (toggleStep sid s).color = s.color ∧
     (toggleStep sid s).visible =
       (if s.id = sid then !s.visible else s.visible)) ∧
    ((drawAudioSourceUpdate T c s).id = s.id ∧
     (drawAudioSourceUpdate T c s).name = s.name ∧
     (drawAudioSourceUpdate T c s).type = s.type ∧
     (drawAudioSourceUpdate T c s).decibel = s.decibel ∧
     (drawAudioSourceUpdate T c s).frequency = s.frequency ∧
     (drawAudioSourceUpdate T c s).distance = s.distance ∧
     (drawAudioSourceUpdate T c s).visible = s.visible ∧
     (drawAudioSourceUpdate T c s).color = s.color ∧
     (drawAudioSourceUpdate T c s).position =
       ⟨T.co ((idNumber s.id : ℚ) * (1 / 2)) * (s.distance * 5),
        T.si ((idNumber s.id : ℚ) * (1 / 2)) * (s.distance * 5), 0⟩) := by
  constructor
  · unfold toggleStep
    split <;> simp_all
  · refine ⟨rfl, rfl, rfl, rfl, rfl, rfl, rfl, rfl, ?_⟩
    unfold drawAudioSourceUpdate markerPoint
    dsimp only
    congr 1 <;> ring

/-- C9: in every rendered frame, the marker of each source sits at angle
(digits of its id) * 0.5 and radius distance * 5 from the listener, while its
text label sits at angle (index / count) * 2 * pi and fixed radius 280 — and
the label placement depends only on the index and the list length, not on the
source (hence not on the marker's drawn position). -/
theorem sonar_marker_label_placement (T : Trig) (c : ℚ × ℚ)
    (ss : List AudioSource) :
    renderMarkers T c ss = ss.map (fun s =>
        (c.1 + T.co ((idNumber s.id : ℚ) * (1 / 2)) * (s.distance * 5),
         c.2 + T.si ((idNumber s.id : ℚ) * (1 / 2)) * (s.distance * 5))) ∧
    renderLabels T c ss = (List.range ss.length).map (fun (i : ℕ) =>
        (c.1 + T.co (((i : ℚ) / (ss.length : ℚ)) * 2 * T.pi) * 280,
         c.2 + T.si (((i : ℚ) / (ss.length : ℚ)) * 2 * T.pi) * 280)) ∧
    (∀ ss' : List AudioSource, ss'.length = ss.length →
        renderLabels T c ss' = renderLabels T c ss) := by
  refine ⟨rfl, rfl, ?_⟩
  intro ss' h
  unfold renderLabels
  rw [h]

/-- Witness for C9 at concrete inputs: two singleton lists with different
sources get identical label placements even though their marker placements
differ. -/
theorem sonar_marker_label_placement_witness :
    renderLabels sampleTrig (0, 0) [sampleSource2] =
      renderLabels sampleTrig (0, 0) [sampleSource] ∧
    renderMarkers sampleTrig (0, 0) [sampleSource2] ≠
      renderMarkers sampleTrig (0, 0) [sampleSource] := by
  refine ⟨(sonar_marker_label_placement sampleTrig (0, 0) [sampleSource]).2.2
    [sampleSource2] rfl, ?_⟩
  intro h
  norm_num [renderMarkers, markerPoint, sampleSource, sampleSource2,
    sampleTrig] at h

end AudioForensic
